import Mathlib

/-!
Shallow embedding of the bundle2 part encoder
(`eden/mononoke/mercurial/bundles/src/part_encode.rs`) and of the blob
value wrapper (`eden/mononoke/mononoke_types/src/blob.rs`).

The encoder is a pull-driven state machine (`GenerationState`, advanced by
`PartEncode.poll_next`) turning one configured part into the ordered chunk
sequence `header, payload chunks, terminator`.  The externally supplied
generated payload is a lazy stream that may suspend or fail; we model it by
the schedule of its future poll responses, consumed in order.
-/

namespace Sapling

/-- Modelled from the spec: `Chunk` (from `crate::chunk`, not among the
sources) is an opaque immutable byte buffer; the zero-length buffer is the
terminator marker.  We model it as its byte sequence. -/
structure Chunk where
  bytes : List Nat
deriving DecidableEq, Repr

/-- Modelled from the spec: `Chunk::empty()`, the canonical zero-length
chunk used as the part terminator. -/
def Chunk.empty : Chunk := ⟨[]⟩

/-- Modelled from the spec: `chunk.is_empty()`, true iff the buffer holds
zero bytes; this is exactly the "is this chunk the terminator" predicate. -/
def Chunk.is_empty (c : Chunk) : Bool := c.bytes.isEmpty

/-- Opaque error values carried by the inner stream (anyhow `Error` in the
source); only their identity matters to the encoder. -/
abbrev Err := Nat

/-- Modelled from the spec: one observable response of the externally
supplied lazy payload sequence at a single poll: yield an item, suspend
("not ready"), or fail with an error.  Exhaustion (`Ready(None)`) is
modelled by the schedule running out. -/
inductive StreamEvent where
  | item (c : Chunk)
  | notReady
  | failure (e : Err)
deriving DecidableEq, Repr

/-- Modelled from the spec: an inner stream as the schedule of its future
poll responses, consumed in order; an exhausted schedule answers
`Ready(None)` forever. -/
abbrev RawStream := List StreamEvent

/-- Result of polling a stream of chunks: `Poll<Option<Chunk>, Error>` in
the source (`Ok(Ready(Some c))`, `Ok(Ready(None))`, `Ok(NotReady)`,
`Err e`). -/
inductive StreamPoll where
  | ready (c : Chunk)
  | finished
  | notReady
  | err (e : Err)
deriving DecidableEq, Repr

/-- One poll of the filtered stream stored by `set_data_generated`: the
`futures` `filter` combinator loops over the underlying stream, skipping
items that fail the predicate (here: zero-length chunks), and propagates
suspension, errors and exhaustion immediately. -/
def pollEvents : RawStream → StreamPoll × RawStream
  | [] => (.finished, [])
  | .item c :: rest => if c.is_empty then pollEvents rest else (.ready c, rest)
  | .notReady :: rest => (.notReady, rest)
  | .failure e :: rest => (.err e, rest)

/-- `ChunkStream` from `part_encode.rs`: the boxed chunk stream stored in a
part's payload.  In the source every `ChunkStream` is constructed by
`set_data_generated`, which wraps the supplied stream in
`filter(|chunk| !chunk.is_empty())`; accordingly its poll below carries the
filter semantics, over the schedule of the supplied stream's responses. -/
structure ChunkStream where
  events : RawStream
deriving DecidableEq, Repr

/-- Polling a `ChunkStream`: filtered poll over its event schedule. -/
def ChunkStream.poll (s : ChunkStream) : StreamPoll × ChunkStream :=
  ((pollEvents s.events).1, ⟨(pollEvents s.events).2⟩)

/-- Numeric part id (`PartId` in the source). -/
abbrev PartId := Nat

/-- Modelled from the spec: `PartHeader` (from `part_header.rs`, not among
the sources) is fully built before encoding starts and is consumed only
through the opaque `encode` operation, so we model a header by its encoded
chunk. -/
structure PartHeader where
  encoded : Chunk
deriving DecidableEq, Repr

/-- Modelled from the spec: `PartHeader::encode()`, a pure total
deterministic function from the header to one chunk. -/
def PartHeader.encode (h : PartHeader) : Chunk := h.encoded

/-- Modelled from the spec: `PartHeaderBuilder` (from `part_header.rs`, not
among the sources) accumulates the header configuration; its `build`
operation assigns the numeric part id and produces the header. -/
structure PartHeaderBuilder where
  build : PartId → PartHeader

/-- `PartEncodeData` from `part_encode.rs`: the three payload variants. -/
inductive PartEncodeData where
  | None
  | Fixed (c : Chunk)
  | Generated (s : ChunkStream)
deriving DecidableEq, Repr

/-- `GenerationState` from `part_encode.rs`: the encoder's state machine. -/
inductive GenerationState where
  | NotStarted (header : PartHeader) (data : PartEncodeData)
  | Fixed (c : Chunk)
  | Generating (s : ChunkStream)
  | EmptyChunk
  | Done
  | Invalid
deriving DecidableEq, Repr

/-- `GenerationState::take`: `mem::replace(self, Invalid)` — hand out the
current state, leaving the transient `Invalid` marker stored for the
duration of the transition.  Returns (taken state, state left stored). -/
def GenerationState.take (s : GenerationState) : GenerationState × GenerationState :=
  (s, .Invalid)

/-- `PartEncode` from `part_encode.rs`: owns exactly one state. -/
structure PartEncode where
  state : GenerationState
deriving Repr

/-- `PartEncodeBuilder` from `part_encode.rs`: a header builder plus the
payload choice (default `None`). -/
structure PartEncodeBuilder where
  headerb : PartHeaderBuilder
  data : PartEncodeData

/-- `PartEncodeBuilder::set_data_fixed`: store the chunk as the fixed
payload (last write wins; note: no filtering of zero-length chunks here,
unlike the generated variant). -/
def PartEncodeBuilder.set_data_fixed (b : PartEncodeBuilder) (data : Chunk) :
    PartEncodeBuilder :=
  { b with data := PartEncodeData.Fixed data }

/-- `PartEncodeBuilder::set_data_generated`: wrap the supplied stream in a
filter dropping zero-length chunks and store it as the generated payload.
In this embedding the filter lives in `ChunkStream.poll`, so the builder
stores the supplied schedule directly. -/
def PartEncodeBuilder.set_data_generated (b : PartEncodeBuilder) (stream : RawStream) :
    PartEncodeBuilder :=
  { b with data := PartEncodeData.Generated ⟨stream⟩ }

/-- `PartEncodeBuilder::build`: consume the builder, build the header with
the given part id, and start the encoder in `NotStarted`. -/
def PartEncodeBuilder.build (b : PartEncodeBuilder) (part_id : PartId) : PartEncode :=
  { state := GenerationState.NotStarted (b.headerb.build part_id) b.data }

/-- Outcome of one pull of the encoder: `Poll<Option<Chunk>, Error>` in the
source, plus a marker for the `panic!` branch reached from `Invalid`. -/
inductive PollOutcome where
  | chunk (c : Chunk)
  | exhausted
  | notReady
  | err (e : Err)
  | panicked
deriving DecidableEq, Repr

/-- `PartEncode::poll_next`: the complete transition function of the
generation state machine, transcribed case by case from the source. -/
def PartEncode.poll_next : GenerationState → PollOutcome × GenerationState
  | .NotStarted header data =>
      (.chunk header.encode,
        match data with
        | .Fixed b => .Fixed b
        | .None => .EmptyChunk
        | .Generated stream => .Generating stream)
  | .Generating s =>
      match s.poll with
      | (.ready v, rest) => (.chunk v, .Generating rest)
      | (.finished, _) => (.chunk Chunk.empty, .Done)
      | (.notReady, rest) => (.notReady, .Generating rest)
      | (.err e, rest) => (.err e, .Generating rest)
  | .Fixed chunk => (.chunk chunk, .EmptyChunk)
  | .EmptyChunk => (.chunk Chunk.empty, .Done)
  | .Done => (.exhausted, .Done)
  | .Invalid => (.panicked, .Invalid)

/-- `Stream::poll` for `PartEncode`: take the state (leaving the transient
`Invalid` marker), advance it with `poll_next`, store the new state. -/
def PartEncode.poll (pe : PartEncode) : PollOutcome × PartEncode :=
  ((PartEncode.poll_next (pe.state.take).1).1,
   ⟨(PartEncode.poll_next (pe.state.take).1).2⟩)

/-- Outcomes of `n` successive pulls starting from a state, paired with the
state stored after the last pull. -/
def runTrace : Nat → GenerationState → List PollOutcome × GenerationState
  | 0, s => ([], s)
  | n + 1, s =>
      ((PartEncode.poll_next s).1 :: (runTrace n (PartEncode.poll_next s).2).1,
       (runTrace n (PartEncode.poll_next s).2).2)

/-- States held before each of `n` successive pulls. -/
def preStates : Nat → GenerationState → List GenerationState
  | 0, _ => []
  | n + 1, s => s :: preStates n (PartEncode.poll_next s).2

/-- Chunks among a list of pull outcomes, in order (suspensions, errors and
exhaustion reports are not chunks). -/
def chunksOf (outs : List PollOutcome) : List Chunk :=
  outs.filterMap fun o =>
    match o with
    | .chunk c => some c
    | _ => none

/-- Chunks the filtered inner stream will deliver over its whole schedule:
its nonempty items in order, dropping suspensions and errors. -/
def streamItems : RawStream → List Chunk
  | [] => []
  | .item c :: r => if c.is_empty then streamItems r else c :: streamItems r
  | .notReady :: r => streamItems r
  | .failure _ :: r => streamItems r

/-- Payload chunks a configured payload contributes to the wire sequence. -/
def payloadChunks : PartEncodeData → List Chunk
  | .None => []
  | .Fixed c => [c]
  | .Generated s => streamItems s.events

/-- Enough pulls to drive the machine from `NotStarted` with this payload
all the way into `Done`. -/
def dataFuel : PartEncodeData → Nat
  | .None => 2
  | .Fixed _ => 3
  | .Generated s => s.events.length + 2

/-- True unless the payload is a `Fixed` zero-length chunk. -/
def fixedPayloadNonempty : PartEncodeData → Bool
  | .Fixed c => !c.is_empty
  | _ => true

/-- A chunk list holds exactly one terminator-valued (zero-length) chunk,
and it is the last element. -/
def oneTerminatorLast (cs : List Chunk) : Prop :=
  (cs.filter fun c => c.is_empty).length = 1 ∧ cs.getLast? = some Chunk.empty

instance (cs : List Chunk) : Decidable (oneTerminatorLast cs) := by
  unfold oneTerminatorLast
  infer_instance

/-- Recognizer for the `NotStarted` state (the only state whose pull
synthesizes the header chunk). -/
def GenerationState.isNotStarted : GenerationState → Bool
  | .NotStarted _ _ => true
  | _ => false

end Sapling

namespace Sapling

/-- `Blob<Id>` from `blob.rs`: a serialized blob in memory, an id together
with its byte data.  Values are immutable; all accessors are pure
functions of the blob. -/
structure Blob (Id : Type) where
  id : Id
  data : List Nat

/-- `Blob::new`: pack an id and a byte buffer into a blob. -/
def Blob.new {Id : Type} (id : Id) (data : List Nat) : Blob Id :=
  { id := id, data := data }

/-- `Blob::len`: length of the blob's data. -/
def Blob.len {Id : Type} (b : Blob Id) : Nat := b.data.length

end Sapling

namespace Sapling

lemma chunksOf_nil : chunksOf [] = [] := rfl

lemma chunksOf_chunk (c : Chunk) (l : List PollOutcome) :
    chunksOf (PollOutcome.chunk c :: l) = c :: chunksOf l := rfl

lemma chunksOf_exhausted (l : List PollOutcome) :
    chunksOf (PollOutcome.exhausted :: l) = chunksOf l := rfl

lemma chunksOf_notReady (l : List PollOutcome) :
    chunksOf (PollOutcome.notReady :: l) = chunksOf l := rfl

lemma chunksOf_err (e : Err) (l : List PollOutcome) :
    chunksOf (PollOutcome.err e :: l) = chunksOf l := rfl

lemma runTrace_done (n : Nat) :
    runTrace n GenerationState.Done
      = (List.replicate n PollOutcome.exhausted, GenerationState.Done) := by
  induction n with
  | zero => rfl
  | succ n ih => simp [runTrace, PartEncode.poll_next, ih, List.replicate]

lemma chunksOf_replicate_exhausted (n : Nat) :
    chunksOf (List.replicate n PollOutcome.exhausted) = [] := by
  induction n with
  | zero => rfl
  | succ n ih => simpa [List.replicate, chunksOf_exhausted] using ih

lemma runTrace_emptyChunk (n : Nat) (hn : 1 ≤ n) :
    chunksOf (runTrace n GenerationState.EmptyChunk).1 = [Chunk.empty] ∧
    (runTrace n GenerationState.EmptyChunk).2 = GenerationState.Done := by
  obtain ⟨m, rfl⟩ : ∃ m, n = m + 1 := ⟨n - 1, by omega⟩
  simp [runTrace, PartEncode.poll_next, chunksOf_chunk, runTrace_done,
    chunksOf_replicate_exhausted]

lemma runTrace_fixed (c : Chunk) (n : Nat) (hn : 2 ≤ n) :
    chunksOf (runTrace n (GenerationState.Fixed c)).1 = [c, Chunk.empty] ∧
    (runTrace n (GenerationState.Fixed c)).2 = GenerationState.Done := by
  obtain ⟨m, rfl⟩ : ∃ m, n = m + 1 := ⟨n - 1, by omega⟩
  have h := runTrace_emptyChunk m (by omega)
  simp [runTrace, PartEncode.poll_next, chunksOf_chunk, h.1, h.2]

lemma runTrace_generating (s : RawStream) :
    ∀ n, s.length + 1 ≤ n →
      chunksOf (runTrace n (GenerationState.Generating ⟨s⟩)).1
          = streamItems s ++ [Chunk.empty] ∧
      (runTrace n (GenerationState.Generating ⟨s⟩)).2 = GenerationState.Done := by
  induction s with
  | nil =>
      intro n hn
      obtain ⟨m, rfl⟩ : ∃ m, n = m + 1 := ⟨n - 1, by omega⟩
      simp [runTrace, PartEncode.poll_next, ChunkStream.poll, pollEvents,
        runTrace_done, chunksOf_chunk, chunksOf_replicate_exhausted, streamItems]
  | cons ev r ih =>
      intro n hn
      obtain ⟨m, rfl⟩ : ∃ m, n = m + 1 := ⟨n - 1, by omega⟩
      cases ev with
      | item c =>
          by_cases hc : c.is_empty
          · have hpoll : PartEncode.poll_next
                  (GenerationState.Generating ⟨StreamEvent.item c :: r⟩)
                = PartEncode.poll_next (GenerationState.Generating ⟨r⟩) := by
              simp [PartEncode.poll_next, ChunkStream.poll, pollEvents, hc]
            have hrun : runTrace (m + 1)
                  (GenerationState.Generating ⟨StreamEvent.item c :: r⟩)
                = runTrace (m + 1) (GenerationState.Generating ⟨r⟩) := by
              simp [runTrace, hpoll]
            have hr := ih (m + 1) (by simp at hn; omega)
            rw [hrun]
            simpa [streamItems, hc] using hr
          · have hr := ih m (by simp at hn; omega)
            simp [runTrace, PartEncode.poll_next, ChunkStream.poll, pollEvents, hc,
              chunksOf_chunk, streamItems, hr.1, hr.2]
      | notReady =>
          have hr := ih m (by simp at hn; omega)
          simp [runTrace, PartEncode.poll_next, ChunkStream.poll, pollEvents,
            chunksOf_notReady, streamItems, hr.1, hr.2]
      | failure e =>
          have hr := ih m (by simp at hn; omega)
          simp [runTrace, PartEncode.poll_next, ChunkStream.poll, pollEvents,
            chunksOf_err, streamItems, hr.1, hr.2]

lemma runTrace_notStarted (hd : PartHeader) (d : PartEncodeData) (n : Nat)
    (hn : dataFuel d + 1 ≤ n) :
    chunksOf (runTrace n (GenerationState.NotStarted hd d)).1
        = hd.encode :: (payloadChunks d ++ [Chunk.empty]) ∧
    (runTrace n (GenerationState.NotStarted hd d)).2 = GenerationState.Done := by
  obtain ⟨m, rfl⟩ : ∃ m, n = m + 1 := ⟨n - 1, by cases d <;> simp [dataFuel] at hn <;> omega⟩
  cases d with
  | None =>
      have h := runTrace_emptyChunk m (by simp [dataFuel] at hn; omega)
      simp [runTrace, PartEncode.poll_next, chunksOf_chunk, h.1, h.2, payloadChunks]
  | Fixed c =>
      have h := runTrace_fixed c m (by simp [dataFuel] at hn; omega)
      simp [runTrace, PartEncode.poll_next, chunksOf_chunk, h.1, h.2, payloadChunks]
  | Generated s =>
      have h := runTrace_generating s.events m (by simp [dataFuel] at hn; omega)
      simp [runTrace, PartEncode.poll_next, chunksOf_chunk, payloadChunks, h.1, h.2]

lemma streamItems_nonempty (s : RawStream) :
    ∀ c ∈ streamItems s, c.is_empty = false := by
  induction s with
  | nil => simp [streamItems]
  | cons ev r ih =>
      cases ev with
      | item c =>
          by_cases hc : c.is_empty
          · simpa [streamItems, hc] using ih
          · intro c' hc'
            rw [streamItems] at hc'
            simp [hc] at hc'
            rcases hc' with rfl | hmem
            · simpa using hc
            · exact ih c' hmem
      | notReady => simpa [streamItems] using ih
      | failure e => simpa [streamItems] using ih

lemma payloadChunks_nonempty (d : PartEncodeData)
    (hfix : fixedPayloadNonempty d = true) :
    ∀ c ∈ payloadChunks d, c.is_empty = false := by
  cases d with
  | None => simp [payloadChunks]
  | Fixed c =>
      simp [fixedPayloadNonempty] at hfix
      simpa [payloadChunks] using hfix
  | Generated s => simpa [payloadChunks] using streamItems_nonempty s.events

lemma oneTerminatorLast_cons_append (h : Chunk) (ps : List Chunk)
    (hh : h.is_empty = false) (hp : ∀ c ∈ ps, c.is_empty = false) :
    oneTerminatorLast (h :: (ps ++ [Chunk.empty])) := by
  constructor
  · have hps : (ps.filter fun c => c.is_empty) = [] := by
      apply List.filter_eq_nil_iff.mpr
      intro c hc
      simp [hp c hc]
    simp [List.filter_cons, List.filter_append, hh, hps,
      show Chunk.empty.is_empty = true from rfl]
  · rw [show h :: (ps ++ [Chunk.empty]) = (h :: ps) ++ [Chunk.empty] by simp]
    exact List.getLast?_concat _

lemma poll_next_not_notStarted (s : GenerationState) :
    ((PartEncode.poll_next s).2).isNotStarted = false := by
  cases s with
  | NotStarted h d => cases d <;> simp [PartEncode.poll_next, GenerationState.isNotStarted]
  | Fixed c => simp [PartEncode.poll_next, GenerationState.isNotStarted]
  | Generating st =>
      rcases hp : st.poll with ⟨p, rest⟩
      cases p <;> simp [PartEncode.poll_next, hp, GenerationState.isNotStarted]
  | EmptyChunk => simp [PartEncode.poll_next, GenerationState.isNotStarted]
  | Done => simp [PartEncode.poll_next, GenerationState.isNotStarted]
  | Invalid => simp [PartEncode.poll_next, GenerationState.isNotStarted]

lemma preStates_after_countP (n : Nat) :
    ∀ s : GenerationState,
      (preStates n (PartEncode.poll_next s).2).countP GenerationState.isNotStarted = 0 := by
  induction n with
  | zero => intro s; rfl
  | succ n ih =>
      intro s
      simp [preStates, List.countP_cons, poll_next_not_notStarted, ih]

lemma poll_next_not_invalid (s : GenerationState) (hs : s ≠ GenerationState.Invalid) :
    (PartEncode.poll_next s).2 ≠ GenerationState.Invalid ∧
    (PartEncode.poll_next s).1 ≠ PollOutcome.panicked := by
  cases s with
  | NotStarted h d => cases d <;> simp [PartEncode.poll_next]
  | Fixed c => simp [PartEncode.poll_next]
  | Generating st =>
      rcases hp : st.poll with ⟨p, rest⟩
      cases p <;> simp [PartEncode.poll_next, hp]
  | EmptyChunk => simp [PartEncode.poll_next]
  | Done => simp [PartEncode.poll_next]
  | Invalid => exact absurd rfl hs

lemma runTrace_no_invalid (n : Nat) :
    ∀ s : GenerationState, s ≠ GenerationState.Invalid →
      (runTrace n s).2 ≠ GenerationState.Invalid ∧
      PollOutcome.panicked ∉ (runTrace n s).1 := by
  induction n with
  | zero => intro s hs; exact ⟨hs, by simp [runTrace]⟩
  | succ n ih =>
      intro s hs
      have h1 := poll_next_not_invalid s hs
      have h2 := ih (PartEncode.poll_next s).2 h1.1
      refine ⟨by simpa [runTrace] using h2.1, ?_⟩
      rw [runTrace]
      simp only [List.mem_cons, not_or]
      exact ⟨fun h => h1.2 h.symm, h2.2⟩

lemma runTrace_succ (n : Nat) (s : GenerationState) :
    runTrace (n + 1) s
      = ((PartEncode.poll_next s).1 :: (runTrace n (PartEncode.poll_next s).2).1,
         (runTrace n (PartEncode.poll_next s).2).2) := rfl

/-- C5: once the encoder has reached the `Done` state, every pull reports
exhaustion again and leaves the state `Done`, indefinitely: `Done` is
absorbing and pulling in it has no other effect. -/
theorem done_state_absorbing :
    PartEncode.poll_next GenerationState.Done
        = (PollOutcome.exhausted, GenerationState.Done) ∧
    ∀ n : Nat, runTrace n GenerationState.Done
        = (List.replicate n PollOutcome.exhausted, GenerationState.Done) :=
  ⟨rfl, runTrace_done⟩

/-- C4: if, while in `Generating`, the inner stream's poll yields an error
`e`, the encoder yields that same error `e` on that pull and stays in
`Generating`, storing back exactly the stream the poll returned — it does
not transition to `Done` or exhaustion. -/
theorem generating_error_surfaced (s s' : ChunkStream) (e : Err)
    (h : s.poll = (StreamPoll.err e, s')) :
    PartEncode.poll_next (GenerationState.Generating s)
      = (PollOutcome.err e, GenerationState.Generating s') := by
  simp [PartEncode.poll_next, h]

/-- Witness for C4 at a concrete one-event schedule. -/
theorem generating_error_surfaced_witness :
    ChunkStream.poll ⟨[StreamEvent.failure 7]⟩ = (StreamPoll.err 7, ⟨[]⟩) ∧
    PartEncode.poll_next (GenerationState.Generating ⟨[StreamEvent.failure 7]⟩)
      = (PollOutcome.err 7, GenerationState.Generating ⟨[]⟩) :=
  ⟨by decide, generating_error_surfaced ⟨[StreamEvent.failure 7]⟩ ⟨[]⟩ 7 (by decide)⟩

/-- C6: if the inner stream answers "not ready" `n` times before yielding a
(nonempty) chunk `c`, the encoder answers "not ready" on each of those `n`
pulls, stays in `Generating` without skipping any item, and on the next
pull yields the pending chunk `c`. -/
theorem generating_suspension_transparent (n : Nat) (c : Chunk) (r : RawStream)
    (hc : c.is_empty = false) :
    runTrace (n + 1) (GenerationState.Generating
        ⟨List.replicate n StreamEvent.notReady ++ StreamEvent.item c :: r⟩)
      = (List.replicate n PollOutcome.notReady ++ [PollOutcome.chunk c],
         GenerationState.Generating ⟨r⟩) := by
  induction n with
  | zero => simp [runTrace, PartEncode.poll_next, ChunkStream.poll, pollEvents, hc]
  | succ n ih =>
      have hpoll : PartEncode.poll_next (GenerationState.Generating
            ⟨List.replicate (n + 1) StreamEvent.notReady ++ StreamEvent.item c :: r⟩)
          = (PollOutcome.notReady, GenerationState.Generating
            ⟨List.replicate n StreamEvent.notReady ++ StreamEvent.item c :: r⟩) := by
        simp [PartEncode.poll_next, ChunkStream.poll, pollEvents, List.replicate_succ]
      rw [runTrace_succ, hpoll]
      simp [ih, List.replicate_succ]

/-- Witness for C6 with two suspensions before a one-byte chunk. -/
theorem generating_suspension_transparent_witness :
    Chunk.is_empty ⟨[5]⟩ = false ∧
    runTrace 3 (GenerationState.Generating
        ⟨List.replicate 2 StreamEvent.notReady ++ StreamEvent.item ⟨[5]⟩ :: []⟩)
      = (List.replicate 2 PollOutcome.notReady ++ [PollOutcome.chunk ⟨[5]⟩],
         GenerationState.Generating ⟨[]⟩) :=
  ⟨by decide, generating_suspension_transparent 2 ⟨[5]⟩ [] (by decide)⟩

/-- C7: starting from any freshly built encoder, after any number of
completed pulls the stored state is never the transient `Invalid` marker,
and no pull ever reaches the panic branch of `poll_next`. -/
theorem invalid_marker_unreachable (b : PartEncodeBuilder) (pid : PartId) (n : Nat) :
    (runTrace n ((b.build pid).state)).2 ≠ GenerationState.Invalid ∧
    PollOutcome.panicked ∉ (runTrace n ((b.build pid).state)).1 :=
  runTrace_no_invalid n ((b.build pid).state) (by simp [PartEncodeBuilder.build])

/-- C10: `Blob.new id data` answers exactly `id` from `id`, exactly `data`
from `data`, and `data.length` from `len`; blobs are immutable values, so
the accessors are pure functions of the blob. -/
theorem blob_new_accessors (Id : Type) (i : Id) (d : List Nat) :
    (Blob.new i d).id = i ∧ (Blob.new i d).data = d ∧
    (Blob.new i d).len = d.length :=
  ⟨rfl, rfl, rfl⟩

/-- C8: a part built with the default `None` payload yields exactly two
items — the header-derived chunk, then the terminator chunk — and then
reports exhaustion forever. -/
theorem no_payload_two_items (hb : PartHeaderBuilder) (pid : PartId) (n : Nat) :
    runTrace (n + 3) ((PartEncodeBuilder.mk hb PartEncodeData.None).build pid).state
      = (PollOutcome.chunk (hb.build pid).encode :: PollOutcome.chunk Chunk.empty ::
          PollOutcome.exhausted :: List.replicate n PollOutcome.exhausted,
         GenerationState.Done) := by
  show runTrace (n + 1 + 1 + 1) _ = _
  rw [runTrace_succ, runTrace_succ, runTrace_succ]
  simp [PartEncode.poll_next, PartEncodeBuilder.build, runTrace_done]

/-- C9: a part configured with the fixed payload bytes `[1, 2, 3]` yields
exactly three items — the header-derived chunk, the chunk holding the
payload bytes, then the terminator chunk — and then reports exhaustion
forever. -/
theorem fixed_payload_three_items (hb : PartHeaderBuilder) (pid : PartId) (n : Nat) :
    runTrace (n + 4)
        (((PartEncodeBuilder.mk hb PartEncodeData.None).set_data_fixed
            ⟨[1, 2, 3]⟩).build pid).state
      = (PollOutcome.chunk (hb.build pid).encode :: PollOutcome.chunk ⟨[1, 2, 3]⟩ ::
          PollOutcome.chunk Chunk.empty :: PollOutcome.exhausted ::
          List.replicate n PollOutcome.exhausted,
         GenerationState.Done) := by
  show runTrace (n + 1 + 1 + 1 + 1) _ = _
  rw [runTrace_succ, runTrace_succ, runTrace_succ, runTrace_succ]
  simp [PartEncode.poll_next, PartEncodeBuilder.build,
    PartEncodeBuilder.set_data_fixed, runTrace_done]

/-- C3: with a generated payload whose inner sequence yields the chunks
`[9]`, `[]`, `[7,7]` and then ends, the encoder produces exactly the header
chunk, `[9]`, `[7,7]`, and one terminator — the embedded zero-length item
is filtered out before it reaches the consumer, not mistaken for the
terminator — and then reports exhaustion forever. -/
theorem generated_payload_filters_empty_chunks (hb : PartHeaderBuilder)
    (pid : PartId) (n : Nat) :
    runTrace (n + 5)
        (((PartEncodeBuilder.mk hb PartEncodeData.None).set_data_generated
            [StreamEvent.item ⟨[9]⟩, StreamEvent.item ⟨[]⟩,
              StreamEvent.item ⟨[7, 7]⟩]).build pid).state
      = (PollOutcome.chunk (hb.build pid).encode :: PollOutcome.chunk ⟨[9]⟩ ::
          PollOutcome.chunk ⟨[7, 7]⟩ :: PollOutcome.chunk Chunk.empty ::
          PollOutcome.exhausted :: List.replicate n PollOutcome.exhausted,
         GenerationState.Done) := by
  show runTrace (n + 1 + 1 + 1 + 1 + 1) _ = _
  rw [runTrace_succ, runTrace_succ, runTrace_succ, runTrace_succ, runTrace_succ]
  simp [PartEncode.poll_next, PartEncodeBuilder.build,
    PartEncodeBuilder.set_data_generated, ChunkStream.poll, pollEvents,
    Chunk.is_empty, runTrace_done]

/-- C2: for every configured part, whichever of the three payload variants
was set, the first item pulled from the encoder is the chunk produced by
encoding the part header; and the header chunk is synthesized exactly once
over the whole sequence: among the states held before each pull, only the
very first is `NotStarted`, the single state whose pull encodes the
header. -/
theorem header_first_synthesized_once (b : PartEncodeBuilder) (pid : PartId) (n : Nat) :
    (runTrace (n + 1) ((b.build pid).state)).1.head?
        = some (PollOutcome.chunk ((b.headerb.build pid).encode)) ∧
    (preStates (n + 1) ((b.build pid).state)).countP GenerationState.isNotStarted = 1 := by
  constructor
  · rw [runTrace_succ]
    simp [PartEncodeBuilder.build, PartEncode.poll_next]
  · rw [preStates]
    simp [PartEncodeBuilder.build, List.countP_cons, GenerationState.isNotStarted,
      preStates_after_countP]

/-- C1 counterexample: the claim "for every configured part, any payload
variant, any chunk contents, exactly one terminator-valued chunk is
yielded and it is last" fails on the code: `set_data_fixed` does not
filter zero-length chunks, so a part with header bytes `[1]` and fixed
payload `Chunk([])` yields `[1]`, `[]`, `[]` — two terminator-valued
chunks, the first of which is not last. -/
theorem fixed_empty_payload_two_terminators :
    ¬ oneTerminatorLast (chunksOf (runTrace 4
        ((((PartEncodeBuilder.mk ⟨fun _ => ⟨⟨[1]⟩⟩⟩
            PartEncodeData.None).set_data_fixed ⟨[]⟩).build 0).state)).1) := by
  decide

/-- C1 (amended): for every configured part whose header encodes to a
nonempty chunk and whose payload, if it is the `Fixed` variant, is a
nonempty chunk, the full sequence of chunks yielded before exhaustion
contains exactly one terminator-valued (zero-length) chunk, and that
terminator is the last chunk; generated payloads need no proviso because
`set_data_generated` filters out their zero-length chunks. -/
theorem one_terminator_and_last (b : PartEncodeBuilder) (pid : PartId) (n : Nat)
    (hfuel : dataFuel b.data + 1 ≤ n)
    (hheader : (b.headerb.build pid).encode.is_empty = false)
    (hfix : fixedPayloadNonempty b.data = true) :
    oneTerminatorLast (chunksOf (runTrace n ((b.build pid).state)).1) ∧
    (runTrace n ((b.build pid).state)).2 = GenerationState.Done := by
  have h := runTrace_notStarted (b.headerb.build pid) b.data n hfuel
  have hstate : (b.build pid).state
      = GenerationState.NotStarted (b.headerb.build pid) b.data := rfl
  rw [hstate]
  refine ⟨?_, h.2⟩
  rw [h.1]
  exact oneTerminatorLast_cons_append _ _ hheader (payloadChunks_nonempty b.data hfix)

/-- Witness for the amended C1 at a generated payload with one item. -/
theorem one_terminator_and_last_witness :
    oneTerminatorLast (chunksOf (runTrace 4
        ((((PartEncodeBuilder.mk ⟨fun _ => ⟨⟨[1]⟩⟩⟩
            PartEncodeData.None).set_data_generated
            [StreamEvent.item ⟨[2]⟩]).build 0).state)).1) ∧
    (runTrace 4 ((((PartEncodeBuilder.mk ⟨fun _ => ⟨⟨[1]⟩⟩⟩
            PartEncodeData.None).set_data_generated
            [StreamEvent.item ⟨[2]⟩]).build 0).state)).2 = GenerationState.Done :=
  one_terminator_and_last
    ((PartEncodeBuilder.mk ⟨fun _ => ⟨⟨[1]⟩⟩⟩
        PartEncodeData.None).set_data_generated [StreamEvent.item ⟨[2]⟩])
    0 4 (by decide) (by decide) (by decide)

end Sapling
